import Mathlib

/-!
Verification development for the hg reactive dataflow runtime.

The Python sources are shallowly embedded: engine time (Python `datetime`) is
modelled by natural numbers, Python sets by `Finset`, raising an exception by
`Except`, and the unbounded `while` loops of the engine and of the toposort
worklist by an explicit fuel parameter (`none` = the loop did not finish within
the given fuel, which for every fuel witnesses divergence of the original loop).
Where behaviour of a class that is not part of the sources is needed
(`PythonTimeSeriesOutput`, `PythonBoundTimeSeriesInput`, `start_stop_context`,
the node comparison used as a sort tie-break), the definition is modelled from
the specification and marked as such in its doc comment.
-/

/-- Engine time: a monotonically ordered instant, modelled as a natural number. -/
abbrev DT := Nat

/-- Modelled from the spec: the minimum engine-time sentinel MIN_DT
(hg/_runtime/_constants.py is not in the sources). -/
def MIN_DT : DT := 0

/-- Modelled from the spec: the maximum engine-time sentinel MAX_DT
(hg/_runtime/_constants.py is not in the sources); only MIN_DT < MAX_DT matters. -/
def MAX_DT : DT := 2 ^ 62

namespace TSS

/-- PythonSetDelta (hg/_impl/_types/_tss.py): a frozen pair of added and removed
element sets. -/
structure PythonSetDelta (α : Type) where
  added : Finset α
  removed : Finset α
deriving DecidableEq

/-- The dynamically typed argument accepted by apply_result: Python None,
a SetDelta, or a raw collection of elements. -/
inductive ApplyValue (α : Type) where
  | vnone : ApplyValue α
  | vdelta (d : PythonSetDelta α) : ApplyValue α
  | vraw (s : Finset α) : ApplyValue α

/-- PythonTimeSeriesSetOutput (hg/_impl/_types/_tss.py): the current membership
`value` (`_value`), the per-tick delta `added`/`removed` (`_added`/`_removed`,
None outside a tick), and the shared output header.  The header fields `valid`
and `last_modified_time` are modelled from the spec, PythonTimeSeriesOutput
(hg/_impl/_types/_output.py) being absent from the sources. -/
structure PythonTimeSeriesSetOutput (α : Type) where
  value : Finset α
  added : Option (Finset α)
  removed : Option (Finset α)
  valid : Bool
  last_modified_time : DT
deriving DecidableEq

/-- Modelled from the spec: PythonTimeSeriesOutput.mark_modified
(hg/_impl/_types/_output.py is not in the sources): the output records the
current engine time as its last-modified time and becomes valid.  The
after-evaluation notification queued by the subclass clears `_added`/`_removed`
only once the tick has ended, so it does not affect same-tick reads. -/
def mark_modified {α : Type} (now : DT) (s : PythonTimeSeriesSetOutput α) :
    PythonTimeSeriesSetOutput α :=
  { s with valid := true, last_modified_time := now }

/-- PythonTimeSeriesSetOutput.delta_value: `PythonSetDelta(frozenset(self._added),
frozenset(self._removed))`; `none` when the delta fields are unset (Python would
raise on `frozenset(None)`). -/
def delta_value {α : Type} (s : PythonTimeSeriesSetOutput α) : Option (PythonSetDelta α) :=
  match s.added, s.removed with
  | some a, some r => some ⟨a, r⟩
  | _, _ => none

/-- PythonTimeSeriesSetOutput.apply_result, line for line: a SetDelta is filtered
against the current value (added drops already-present elements, removed drops
absent elements), the ValueError is raised when the filtered sets intersect,
the value is updated, and mark_modified runs when something changed or the
output was invalid.  A non-delta result is treated as a set of added elements. -/
def apply_result {α : Type} [DecidableEq α] (now : DT) (s : PythonTimeSeriesSetOutput α)
    (result : ApplyValue α) : Except String (PythonTimeSeriesSetOutput α) :=
  match result with
  | ApplyValue.vnone => Except.ok s
  | ApplyValue.vdelta d =>
    let added := d.added.filter (fun e => e ∉ s.value)
    let removed := d.removed.filter (fun e => e ∈ s.value)
    if (removed ∩ added).Nonempty then
      Except.error "Cannot remove and add the same element"
    else
      let s1 := { s with value := (s.value ∪ added) \ removed,
                         added := some added, removed := some removed }
      Except.ok (if added.Nonempty ∨ removed.Nonempty ∨ s1.valid = false then
        mark_modified now s1 else s1)
  | ApplyValue.vraw r =>
    let added := r
    let removed : Finset α := ∅
    let s1 := { s with value := s.value ∪ added,
                       added := some added, removed := some removed }
    Except.ok (if added.Nonempty ∨ removed.Nonempty ∨ s1.valid = false then
      mark_modified now s1 else s1)

/-- Prior state for the delta round-trip counterexample: the set already
contains the element 1 and holds no per-tick delta. -/
def c6_state : PythonTimeSeriesSetOutput Nat :=
  { value := {1}, added := none, removed := none, valid := true, last_modified_time := 0 }

/-- Delta for the round-trip counterexample: re-add the present element 1 and
remove the absent element 2. -/
def c6_delta : PythonSetDelta Nat := ⟨{1}, {2}⟩

/-- Prior state used by the round-trip witness: an empty, not-yet-valid set. -/
def c6_witness_state : PythonTimeSeriesSetOutput Nat :=
  { value := ∅, added := none, removed := none, valid := false, last_modified_time := 0 }

/-- Delta used by the round-trip witness: add the fresh elements 1 and 2,
remove nothing. -/
def c6_witness_delta : PythonSetDelta Nat := ⟨{1, 2}, ∅⟩

end TSS

namespace TSB

/-- Modelled from the spec: the shared output header of PythonTimeSeriesOutput
(hg/_impl/_types/_output.py is not in the sources).  Only the validity flag is
needed here; for a bundle output this is the header of the peer itself. -/
structure PythonTimeSeriesOutput where
  valid : Bool
deriving DecidableEq

/-- Modelled from the spec: PythonBoundTimeSeriesInput
(hg/_impl/_types/_input.py is not in the sources).  An input stores at most one
bound output (`_output`). -/
structure PythonBoundTimeSeriesInput where
  output : Option PythonTimeSeriesOutput
deriving DecidableEq

/-- Modelled from the spec: PythonBoundTimeSeriesInput.bound — an input is
bound when it has an output. -/
def PythonBoundTimeSeriesInput.bound (i : PythonBoundTimeSeriesInput) : Bool :=
  i.output.isSome

/-- Modelled from the spec: PythonBoundTimeSeriesInput.valid — "an input is
valid iff the output it resolves to is valid"; an unbound input is not valid. -/
def PythonBoundTimeSeriesInput.valid (i : PythonBoundTimeSeriesInput) : Bool :=
  match i.output with
  | some o => o.valid
  | none => false

/-- PythonTimeSeriesBundleInput (hg/_impl/_types/_tsb.py): the inherited bound
output (the peer, when present) together with the owned child inputs
(`self.values()`).  Children are modelled as bound scalar inputs. -/
structure PythonTimeSeriesBundleInput where
  output : Option PythonTimeSeriesOutput
  children : List PythonBoundTimeSeriesInput
deriving DecidableEq

/-- PythonTimeSeriesBundleInput.has_peer: `super().bound`. -/
def PythonTimeSeriesBundleInput.has_peer (b : PythonTimeSeriesBundleInput) : Bool :=
  b.output.isSome

/-- The inherited `super().valid` of the bundle input, i.e. the (spec-modelled)
bound-input validity read on the bundle's own binding. -/
def PythonTimeSeriesBundleInput.super_valid (b : PythonTimeSeriesBundleInput) : Bool :=
  PythonBoundTimeSeriesInput.valid ⟨b.output⟩

/-- PythonTimeSeriesBundleInput.valid, line for line: `super().valid` when the
bundle has a peer, otherwise `any(ts.valid for ts in self.values())`. -/
def PythonTimeSeriesBundleInput.valid (b : PythonTimeSeriesBundleInput) : Bool :=
  if b.has_peer then b.super_valid
  else b.children.any PythonBoundTimeSeriesInput.valid

/-- Concrete peered bundle input for the C7 witness. -/
def c7_peered : PythonTimeSeriesBundleInput :=
  { output := some ⟨true⟩, children := [⟨none⟩, ⟨some ⟨false⟩⟩] }

/-- Concrete unbound bundle input for the C7 witness. -/
def c7_unbound : PythonTimeSeriesBundleInput :=
  { output := none, children := [⟨none⟩, ⟨some ⟨true⟩⟩] }

end TSB

namespace Engine

/-- RunMode (hg/_runtime/_graph_engine.py, re-exported): REAL_TIME or BACK_TEST. -/
inductive RunMode where
  | REAL_TIME : RunMode
  | BACK_TEST : RunMode
deriving DecidableEq

/-- BackTestExecutionContext (hg/_impl/_runtime/_graph_engine.py): the current
engine time (`_current_time`), the proposed next engine time
(`_proposed_next_engine_time`) and the wall-clock anchor recorded by the
current_engine_time setter (`_wall_clock_time_at_current_time`). -/
structure BackTestExecutionContext where
  current_time : DT
  proposed_next_engine_time : DT
  wall_clock_anchor : DT
deriving DecidableEq

/-- The current_engine_time setter: writes `_current_time` and records the
wall clock (`datetime.now()`, passed in as `now`) as the anchor. -/
def set_current_engine_time (now : DT) (t : DT) (ctx : BackTestExecutionContext) :
    BackTestExecutionContext :=
  { ctx with current_time := t, wall_clock_anchor := now }

/-- BackTestExecutionContext construction: the setter runs on the start time and
`_proposed_next_engine_time` is initialised to MAX_DT. -/
def mkBackTestExecutionContext (current_time : DT) (now : DT) : BackTestExecutionContext :=
  set_current_engine_time now current_time
    { current_time := current_time, proposed_next_engine_time := MAX_DT,
      wall_clock_anchor := now }

/-- BackTestExecutionContext.wall_clock_time: `_current_time + engine_lag` where
engine_lag is `datetime.now() - _wall_clock_time_at_current_time` (`now` stands
for the host clock read; truncated Nat subtraction models a monotone clock). -/
def wall_clock_time (now : DT) (ctx : BackTestExecutionContext) : DT :=
  ctx.current_time + (now - ctx.wall_clock_anchor)

/-- BackTestExecutionContext.push_has_pending_values: always False, a back-test
run accepts no asynchronous pushes. -/
def push_has_pending_values (_ctx : BackTestExecutionContext) : Bool :=
  false

/-- BackTestExecutionContext.wait_until_proposed_engine_time: writes
`_current_time` directly (not through the setter) and returns at once. -/
def wait_until_proposed_engine_time (t : DT) (ctx : BackTestExecutionContext) :
    BackTestExecutionContext :=
  { ctx with current_time := t }

/-- A node of the runnable graph, as the engine sees it: the scheduled-time
component that `evaluate_graph` unpacks from the node, and the engine-visible
effect of the user evaluation function — whether `eval()` at a given engine time
calls `request_stop()` on the engine.  All other effects of the external user
callback are invisible to the engine state the claims are about. -/
structure PNode where
  scheduled_time : DT
  requests_stop : DT → Bool

/-- PythonGraphEngine (hg/_impl/_runtime/_graph_engine.py): the graph (nodes and
push-source partition), lifecycle flags, run window, scheduler array, execution
context and run mode.  Scheduler slots are `[MIN_DT] * len(nodes)` after
initialise and `none`-like empty before. -/
structure PythonGraphEngine where
  nodes : List PNode
  push_source_nodes_end : Nat
  is_started : Bool
  stop_requested : Bool
  start_time : DT
  end_time : DT
  scheduler : List DT
  execution_context : Option BackTestExecutionContext
  run_mode : RunMode

/-- PythonGraphEngine.initialise: `self._scheduler = [MIN_DT] * len(self.graph.nodes)`. -/
def initialise (e : PythonGraphEngine) : PythonGraphEngine :=
  { e with scheduler := List.replicate e.nodes.length MIN_DT }

/-- PythonGraphEngine.request_stop: sets the flag. -/
def request_stop (e : PythonGraphEngine) : PythonGraphEngine :=
  { e with stop_requested := true }

/-- Errors surfaced by the engine run: the ValueError for an inverted time range,
the NotImplementedError of the REAL_TIME branch of start, and the
AttributeError Python raises when the loop reads the current engine time of a
missing execution context. -/
inductive RunError where
  | invalidTimeRange : RunError
  | notImplemented : RunError
  | attributeError : RunError
deriving DecidableEq

/-- PythonGraphEngine.start: when not yet started, mark started, clear the stop
flag, then REAL_TIME raises NotImplementedError while BACK_TEST creates a
BackTestExecutionContext on the start time.  The per-node `node.start()` calls
run external user start functions and the notify callbacks only inform
observers; neither changes the engine state modelled here. -/
def startEngine (now : DT) (e : PythonGraphEngine) : Except RunError PythonGraphEngine :=
  if e.is_started then Except.ok e
  else
    match e.run_mode with
    | RunMode.REAL_TIME => Except.error RunError.notImplemented
    | RunMode.BACK_TEST =>
      Except.ok { e with is_started := true, stop_requested := false,
                         execution_context :=
                           some (mkBackTestExecutionContext e.start_time now) }

/-- Per-node and per-graph lifecycle observer callbacks fired by the engine's
notify helpers. -/
inductive LifeEvent where
  | before_start : LifeEvent
  | after_start : LifeEvent
  | before_stop : LifeEvent
  | after_stop : LifeEvent
  | before_start_node (i : Nat) : LifeEvent
  | after_start_node (i : Nat) : LifeEvent
  | before_stop_node (i : Nat) : LifeEvent
  | after_stop_node (i : Nat) : LifeEvent
deriving DecidableEq

/-- PythonGraphEngine.stop, line for line: when started, clear is_started, emit
notify_before_stop, then for every node notify_before_stop_node, `node.stop()`,
and then — exactly as the source reads — notify_before_start_node, then
notify_after_stop, and drop the execution context.  The returned list is the
sequence of observer callbacks fired. -/
def stopEngine (e : PythonGraphEngine) : PythonGraphEngine × List LifeEvent :=
  if e.is_started then
    ({ e with is_started := false, execution_context := none },
     [LifeEvent.before_stop]
       ++ (List.range e.nodes.length).flatMap
            (fun i => [LifeEvent.before_stop_node i, LifeEvent.before_start_node i])
       ++ [LifeEvent.after_stop])
  else (e, [])

/-- PythonGraphEngine.advance_engine_time acting on the execution context, with
the engine fields it reads passed in: the stop_requested snap to end_time, the
wall-clock-caught-up snap to the proposed time, the pending-push snap to the
wall clock, and otherwise the wait call. -/
def advanceCtx (now : DT) (stop_requested : Bool) (end_time : DT)
    (ctx : BackTestExecutionContext) : BackTestExecutionContext :=
  if stop_requested then set_current_engine_time now end_time ctx
  else
    let proposed := ctx.proposed_next_engine_time
    let wall := wall_clock_time now ctx
    if wall ≥ proposed then set_current_engine_time now proposed ctx
    else if push_has_pending_values ctx then set_current_engine_time now wall ctx
    else wait_until_proposed_engine_time proposed ctx

/-- PythonGraphEngine.advance_engine_time: the context update above applied to
the engine's execution context (absent context would raise in Python; run only
calls this with the context installed). -/
def advance_engine_time (now : DT) (e : PythonGraphEngine) : PythonGraphEngine :=
  { e with execution_context :=
      e.execution_context.map (advanceCtx now e.stop_requested e.end_time) }

/-- The precedence of advance_engine_time transcribed from the specification's
four numbered clauses, to be compared with the source transcription. -/
def advanceCtxSpec (now : DT) (stop_requested : Bool) (end_time : DT)
    (ctx : BackTestExecutionContext) : BackTestExecutionContext :=
  if stop_requested then
    set_current_engine_time now end_time ctx
  else if wall_clock_time now ctx ≥ ctx.proposed_next_engine_time then
    set_current_engine_time now ctx.proposed_next_engine_time ctx
  else if push_has_pending_values ctx then
    set_current_engine_time now (wall_clock_time now ctx) ctx
  else
    wait_until_proposed_engine_time ctx.proposed_next_engine_time ctx

/-- The engine-visible effect of `node.eval()`: the external user callback may
call `request_stop()` on the engine. -/
def eval_node (now : DT) (n : PNode) (e : PythonGraphEngine) : PythonGraphEngine :=
  if n.requests_stop now then request_stop e else e

/-- PythonGraphEngine.evaluate_graph: read `now` once; when the context reports
pending push values, reset the flag (a no-op on the back-test context) and eval
every push source `nodes[0..push_source_nodes_end)`; then eval every remaining
node whose unpacked scheduled time equals `now`.  The notify callbacks only
inform observers. -/
def evaluate_graph (e : PythonGraphEngine) : PythonGraphEngine :=
  match e.execution_context with
  | none => e
  | some ctx =>
    let now := ctx.current_time
    let e1 :=
      if push_has_pending_values ctx then
        (e.nodes.take e.push_source_nodes_end).foldl (fun acc n => eval_node now n acc) e
      else e
    (e1.nodes.drop e1.push_source_nodes_end).foldl
      (fun acc n => if n.scheduled_time = now then eval_node now n acc else acc) e1

/-- The `while self._execution_context.current_engine_time <= end_time` loop of
run: each pass evaluates the graph and advances engine time; `clk` supplies the
host wall-clock reads and `fuel` bounds the number of passes (`Except.ok none`
means the fuel ran out, i.e. the Python loop was still running). -/
def runLoop (clk : Nat → DT) :
    Nat → Nat → PythonGraphEngine → Except RunError (Option PythonGraphEngine)
  | 0, _, e =>
    match e.execution_context with
    | none => Except.error RunError.attributeError
    | some ctx =>
      if ctx.current_time ≤ e.end_time then Except.ok none else Except.ok (some e)
  | Nat.succ fuel1, k, e =>
    match e.execution_context with
    | none => Except.error RunError.attributeError
    | some ctx =>
      if ctx.current_time ≤ e.end_time then
        runLoop clk fuel1 (k + 1) (advance_engine_time (clk k) (evaluate_graph e))
      else Except.ok (some e)

/-- PythonGraphEngine.run: record the window, raise ValueError when
`end_time < start_time`, then — under the spec-modelled start_stop_context
(hg/_runtime/_lifecycle.py is not in the sources): start on entry, stop on every
exit path — run the evaluation loop.  `Except.ok none` reports that the loop was
still running when the fuel ran out. -/
def run (clk : Nat → DT) (fuel : Nat) (e : PythonGraphEngine)
    (start_time end_time : DT) : Except RunError (Option PythonGraphEngine) :=
  let e1 := { e with start_time := start_time, end_time := end_time }
  if end_time < start_time then Except.error RunError.invalidTimeRange
  else
    match startEngine (clk 0) e1 with
    | Except.error er => Except.error er
    | Except.ok e2 =>
      match runLoop clk fuel 1 e2 with
      | Except.error er => Except.error er
      | Except.ok none => Except.ok none
      | Except.ok (some e3) => Except.ok (some (stopEngine e3).1)

end Engine

namespace Engine

/-- A fresh back-test engine over the given nodes, before initialise and start. -/
def freshEngine (ns : List PNode) (mode : RunMode) : PythonGraphEngine :=
  { nodes := ns, push_source_nodes_end := 0, is_started := false,
    stop_requested := false, start_time := 0, end_time := 0, scheduler := [],
    execution_context := none, run_mode := mode }

/-- A node scheduled at MIN_DT whose user eval function calls request_stop at
every evaluation. -/
def stopping_node : PNode :=
  { scheduled_time := MIN_DT, requests_stop := fun _ => true }

/-- A node scheduled at MIN_DT whose user eval function never calls request_stop. -/
def quiet_node : PNode :=
  { scheduled_time := MIN_DT, requests_stop := fun _ => false }

/-- The failing input of C1: a back-test engine with one regular node that
requests a stop during its first evaluation. -/
def c1_engine : PythonGraphEngine := freshEngine [stopping_node] RunMode.BACK_TEST

/-- Concrete engine for the C3 divergence: one quiet node, back-test mode. -/
def c3_engine : PythonGraphEngine := freshEngine [quiet_node] RunMode.BACK_TEST

/-- Concrete started engine for the C5 divergence: one node, back-test mode,
with the lifecycle already started. -/
def c5_engine : PythonGraphEngine :=
  { freshEngine [quiet_node] RunMode.BACK_TEST with
      is_started := true,
      execution_context := some (mkBackTestExecutionContext 0 0) }

/-- The counterexample input of C8: a REAL_TIME engine; start raises
NotImplementedError, so the evaluation loop is never entered even though
end_time is not before start_time. -/
def c8_engine : PythonGraphEngine := freshEngine [quiet_node] RunMode.REAL_TIME

/-- A back-test engine used by the C8 witness. -/
def c8_witness_engine : PythonGraphEngine := freshEngine [quiet_node] RunMode.BACK_TEST

end Engine

namespace Builder

/-- A time-series structure tree: composite inputs and outputs are indexable
collections of children (scalar leaves have no children).  This is the shape
walked by the edge paths of PythonGraphBuilder. -/
inductive TSTree where
  | node (children : List TSTree) : TSTree

/-- The children of a tree node. -/
def TSTree.children : TSTree → List TSTree
  | TSTree.node cs => cs

/-- Indexing `output[item]` / `input[item]`: Python raises when the index is
missing. -/
def TSTree.index (t : TSTree) (i : Nat) : Except String TSTree :=
  match t.children.get? i with
  | some c => Except.ok c
  | none => Except.error "invalid path item"

/-- Walking the remainder of a path by repeated indexing. -/
def walkPath : TSTree → List Nat → Except String TSTree
  | t, [] => Except.ok t
  | t, i :: rest => match t.index i with
    | Except.ok c => walkPath c rest
    | Except.error msg => Except.error msg

/-- A runtime node as the builder wires it: its output root and input root. -/
structure RNode where
  output : TSTree
  input : TSTree

/-- Modelled from the spec: a NodeBuilder (hg/_impl/_builder/_node_builder.py is
not in the sources) allocates a node instance for a graph identifier. -/
structure NodeBuilder where
  make : List Nat → RNode

/-- Edge (hg/_builder/_graph_builder.py): source and destination node indices
with the output and input paths. -/
structure Edge where
  src_node : Nat
  dst_node : Nat
  output_path : List Nat
  input_path : List Nat

/-- PythonGraphBuilder._extract_output: `if not path: raise`; otherwise walk the
path from `node.output`. -/
def extract_output (node : RNode) (path : List Nat) : Except String TSTree :=
  if path = [] then Except.error "No path to find an output for"
  else walkPath node.output path

/-- PythonGraphBuilder._extract_input: `if not path: raise`; otherwise walk the
path from `node.input`. -/
def extract_input (node : RNode) (path : List Nat) : Except String TSTree :=
  if path = [] then Except.error "No path to find an input for"
  else walkPath node.input path

/-- `nodes[i]`: Python raises IndexError when the index is out of range. -/
def getNode (nodes : List RNode) (i : Nat) : Except String RNode :=
  match nodes.get? i with
  | some n => Except.ok n
  | none => Except.error "node index out of range"

/-- One wiring record: the effect of `input_.output = output` for an edge. -/
structure Binding where
  dst_node : Nat
  input_path : List Nat
  bound_output : TSTree

/-- The edge-wiring loop of make_instance: resolve each edge in declaration
order, recording the binding; any failure aborts with the raised error. -/
def wireEdges (nodes : List RNode) : List Edge → List Binding →
    Except String (List Binding)
  | [], acc => Except.ok acc
  | e :: rest, acc =>
    match getNode nodes e.src_node with
    | Except.error msg => Except.error msg
    | Except.ok src =>
      match getNode nodes e.dst_node with
      | Except.error msg => Except.error msg
      | Except.ok dst =>
        match extract_output src e.output_path with
        | Except.error msg => Except.error msg
        | Except.ok out =>
          match extract_input dst e.input_path with
          | Except.error msg => Except.error msg
          | Except.ok _inp =>
            wireEdges nodes rest (acc ++ [⟨e.dst_node, e.input_path, out⟩])

/-- PythonGraphBuilder: the node builders and the declared edges. -/
structure PythonGraphBuilder where
  node_builders : List NodeBuilder
  edges : List Edge

/-- GraphImpl as make_instance returns it: the graph identifier, the nodes in
builder order, and the wiring performed.  `node.initialise()` (Node is not in
the sources) resolves back-references only, leaving this state unchanged. -/
structure GraphImpl where
  graph_id : List Nat
  nodes : List RNode
  bindings : List Binding

/-- PythonGraphBuilder.make_instance: construct every node, wire every edge via
_extract_output / _extract_input (any raised error aborts), initialise the
nodes, and return the graph. -/
def make_instance (b : PythonGraphBuilder) (graph_id : List Nat) :
    Except String GraphImpl :=
  let nodes := b.node_builders.map (fun nb => nb.make graph_id)
  match wireEdges nodes b.edges [] with
  | Except.error msg => Except.error msg
  | Except.ok bs => Except.ok { graph_id := graph_id, nodes := nodes, bindings := bs }

/-- A two-node builder used by the C10 witness: node 0 offers one child output,
node 1 one child input, a single edge connects them with one-step paths. -/
def c10_builder : PythonGraphBuilder :=
  { node_builders :=
      [⟨fun _ => ⟨TSTree.node [TSTree.node []], TSTree.node []⟩⟩,
       ⟨fun _ => ⟨TSTree.node [], TSTree.node [TSTree.node []]⟩⟩],
    edges := [⟨0, 1, [0], [0]⟩] }

/-- The same builder with the edge's output path emptied, for the error half of
the C10 witness. -/
def c10_builder_empty_path : PythonGraphBuilder :=
  { c10_builder with edges := [⟨0, 1, [], [0]⟩] }

end Builder

namespace Wiring

/-- WiringNodeInstance as toposort (src/hgraph/_wiring/_graph_builder.py) reads
it: producer nodes of its inputs and rank markers (`ts_nodes`, in order),
whether it is a source node, whether its resolved signature's node type is
PUSH_SOURCE_NODE, and whether it is a stub.  Nodes are referenced by an index
into the graph list. -/
structure WiringNodeInstance where
  inputs : List Nat
  is_source_node : Bool
  is_push_source : Bool
  is_stub : Bool
deriving DecidableEq

/-- A node reference outside the graph list behaves as an isolated non-source
node; the Python original passes object references, so this case never arises. -/
def nodeAt (g : List WiringNodeInstance) (i : Nat) : WiringNodeInstance :=
  g.getD i ⟨[], false, false, false⟩

/-- Insertion-ordered association-list lookup, modelling Python dict access. -/
def lookupAssoc : List (Nat × Nat) → Nat → Option Nat
  | [], _ => none
  | (k0, v0) :: rest, k => if k0 = k then some v0 else lookupAssoc rest k

/-- `processed_nodes[x]`: every key read by the algorithm has been inserted, the
default 0 is never reached. -/
def lookupRank (p : List (Nat × Nat)) (k : Nat) : Nat :=
  (lookupAssoc p k).getD 0

/-- `x in processed_nodes`. -/
def memAssoc (p : List (Nat × Nat)) (k : Nat) : Bool :=
  (lookupAssoc p k).isSome

/-- `processed_nodes[k] = v`: Python dict assignment keeps the insertion
position of an existing key and appends a new one. -/
def setAssoc : List (Nat × Nat) → Nat → Nat → List (Nat × Nat)
  | [], k, v => [(k, v)]
  | (k0, v0) :: rest, k, v =>
    if k0 = k then (k0, v) :: rest else (k0, v0) :: setAssoc rest k v

/-- `mapping[from_node]`: the defaultdict yields the empty consumer set. -/
def lookupConsumers : List (Nat × List Nat) → Nat → List Nat
  | [], _ => []
  | (k0, l) :: rest, k => if k0 = k then l else lookupConsumers rest k

/-- `mapping[from_node].add(to_node)`: the consumer sets of the Python original
are hash sets; they are modelled in insertion order, which fixes one concrete
iteration order (the propagation fixed point and the emitted result do not
depend on it). -/
def addConsumer : List (Nat × List Nat) → Nat → Nat → List (Nat × List Nat)
  | [], f, t => [(f, [t])]
  | (k0, l) :: rest, f, t =>
    if k0 = f then (k0, if t ∈ l then l else l ++ [t]) :: rest
    else (k0, l) :: addConsumer rest f t

/-- `source_nodes.add(n)`, modelled in insertion order like the consumer sets. -/
def addSource (l : List Nat) (s : Nat) : List Nat :=
  if s ∈ l then l else l ++ [s]

/-- State of the first (reverse breadth-first) phase of toposort: the
producer-to-consumers adjacency, the collected source nodes, the
`processed_nodes` rank dict, and the pending deque. -/
structure DiscoverState where
  mapping : List (Nat × List Nat)
  sources : List Nat
  processed : List (Nat × Nat)
  queue : List Nat
deriving DecidableEq

/-- The `for from_node in ts_nodes` body of the discovery loop: extend the
adjacency; a source producer is recorded with rank 1 and never queued, any
other producer is appended to the deque. -/
def scanInputs (g : List WiringNodeInstance) (to_node : Nat) :
    List Nat → DiscoverState → DiscoverState
  | [], st => st
  | f :: fs, st =>
    let m1 := addConsumer st.mapping f to_node
    if (nodeAt g f).is_source_node then
      scanInputs g to_node fs
        { st with mapping := m1, sources := addSource st.sources f,
                  processed := setAssoc st.processed f 1 }
    else
      scanInputs g to_node fs { st with mapping := m1, queue := st.queue ++ [f] }

/-- The discovery loop (`while len(nodes_to_process) > 0`), fuelled: pop the
left end of the deque, skip already-processed nodes, otherwise record rank 1
and scan the node's producers. -/
def discover (g : List WiringNodeInstance) (fuel : Nat) (st : DiscoverState) :
    Option DiscoverState :=
  match st.queue with
  | [] => some st
  | t :: rest =>
    match fuel with
    | 0 => none
    | Nat.succ fuel1 =>
      if memAssoc st.processed t then discover g fuel1 { st with queue := rest }
      else
        discover g fuel1
          (scanInputs g t (nodeAt g t).inputs
            { st with processed := setAssoc st.processed t 1, queue := rest })

/-- The `for to_node in mapping[from_node]` body of the ranking loop: raise each
consumer's rank to `max(rank(consumer), rank(producer) + 1)` and track the
maximum assigned rank; the producer's rank is re-read at each step exactly as
the Python original re-reads `processed_nodes[from_node]`. -/
def propagate (f : Nat) : List Nat → List (Nat × Nat) → Nat → List (Nat × Nat) × Nat
  | [], p, mr => (p, mr)
  | t :: ts, p, mr =>
    let r := max (lookupRank p t) (lookupRank p f + 1)
    propagate f ts (setAssoc p t r) (max mr r)

/-- The ranking loop of toposort, fuelled: pop the right end of the deque (the
head here), fail when an unsupported push source appears, reset a push source's
rank to 0, propagate to its consumers and push them all back onto the stack. -/
def rankNodes (g : List WiringNodeInstance) (supports_push : Bool)
    (m : List (Nat × List Nat)) :
    Nat → List Nat → List (Nat × Nat) → Nat →
    Option (Except String (List (Nat × Nat) × Nat))
  | _, [], p, mr => some (Except.ok (p, mr))
  | 0, _ :: _, _, _ => none
  | Nat.succ fuel1, f :: rest, p, mr =>
    if supports_push = false ∧ (nodeAt g f).is_push_source = true then
      some (Except.error "push source node not supported")
    else
      let p1 := if (nodeAt g f).is_push_source then setAssoc p f 0 else p
      let cs := lookupConsumers m f
      let pm := propagate f cs p1 mr
      rankNodes g supports_push m fuel1 (cs.reverse ++ rest) pm.1 pm.2

/-- `for node in nodes: processed_nodes[node] = max_rank`: every original sink
node's rank becomes the tracked maximum. -/
def setSinks (sinks : List Nat) (mr : Nat) (p : List (Nat × Nat)) : List (Nat × Nat) :=
  sinks.foldl (fun acc n => setAssoc acc n mr) p

/-- Ordered insertion of a `(rank, insertion index, node)` triple: ranks first,
insertion index as the tie-break.  Modelled from the spec: the Python original
sorts `(rank, node)` pairs whose node-object comparison is not in the sources;
the spec fixes "(rank, original-insertion) order". -/
def insertByRank (x : Nat × Nat × Nat) :
    List (Nat × Nat × Nat) → List (Nat × Nat × Nat)
  | [] => [x]
  | y :: ys =>
    if x.1 < y.1 ∨ (x.1 = y.1 ∧ x.2.1 ≤ y.2.1) then x :: y :: ys
    else y :: insertByRank x ys

/-- Insertion sort over `(rank, insertion index, node)` triples. -/
def sortByRank : List (Nat × Nat × Nat) → List (Nat × Nat × Nat)
  | [] => []
  | x :: xs => insertByRank x (sortByRank xs)

/-- The emission step of toposort: sort the `processed_nodes` items (kept in
insertion order) by rank with the insertion tie-break, drop stub nodes, return
the node ids. -/
def emitSorted (g : List WiringNodeInstance) (p : List (Nat × Nat)) : List Nat :=
  let triples := p.enum.map (fun pr => (pr.2.2, pr.1, pr.2.1))
  ((sortByRank triples).filter (fun tr => ! (nodeAt g tr.2.2).is_stub)).map
    (fun tr => tr.2.2)

/-- toposort (src/hgraph/_wiring/_graph_builder.py): discovery from the sinks,
ranking from the collected sources (the deque extended with the sources is
popped from the right, so the first node popped is the last source collected),
sink re-assignment to the tracked maximum rank, and sorted emission. -/
def toposort (g : List WiringNodeInstance) (sinks : List Nat)
    (supports_push : Bool) (fuel : Nat) : Option (Except String (List Nat)) :=
  match discover g fuel { mapping := [], sources := [], processed := [], queue := sinks } with
  | none => none
  | some st =>
    match rankNodes g supports_push st.mapping fuel st.sources.reverse st.processed 0 with
    | none => none
    | some (Except.error msg) => some (Except.error msg)
    | some (Except.ok pm) =>
      some (Except.ok (emitSorted g (setSinks sinks pm.2 pm.1)))

/-- All ranks re-initialised to 0, as the claim's reading would have it before
propagation. -/
def zeroRanks (p : List (Nat × Nat)) : List (Nat × Nat) :=
  p.map (fun kv => (kv.1, 0))

/-- The claim's propagation: the same worklist but with no special treatment of
push sources during the loop. -/
def rankNodesClaimed (g : List WiringNodeInstance) (m : List (Nat × List Nat)) :
    Nat → List Nat → List (Nat × Nat) → Option (List (Nat × Nat))
  | _, [], p => some p
  | 0, _ :: _, _ => none
  | Nat.succ fuel1, f :: rest, p =>
    let cs := lookupConsumers m f
    let pm := propagate f cs p 0
    rankNodesClaimed g m fuel1 (cs.reverse ++ rest) pm.1

/-- The claim's post-propagation step: every push-source node's rank becomes 0. -/
def resetPushRanks (g : List WiringNodeInstance) (p : List (Nat × Nat)) :
    List (Nat × Nat) :=
  p.map (fun kv => if (nodeAt g kv.1).is_push_source then (kv.1, 0) else kv)

/-- The global maximum rank over all processed nodes. -/
def globalMaxRank (p : List (Nat × Nat)) : Nat :=
  p.foldl (fun acc kv => max acc kv.2) 0

/-- The algorithm claim C4 describes, transcribed from its words: source ranks
initialised to 0 (all ranks start at 0), propagation
`rank(consumer) = max(rank(consumer), rank(producer) + 1)` to a fixed point,
then push-source ranks re-assigned to 0 and the original sink ranks to the
global maximum rank, and emission of the non-stub nodes in
(rank, original-insertion) order. -/
def toposortClaimed (g : List WiringNodeInstance) (sinks : List Nat) (fuel : Nat) :
    Option (List Nat) :=
  match discover g fuel { mapping := [], sources := [], processed := [], queue := sinks } with
  | none => none
  | some st =>
    match rankNodesClaimed g st.mapping fuel st.sources.reverse (zeroRanks st.processed) with
    | none => none
    | some p1 =>
      let p2 := resetPushRanks g p1
      some (emitSorted g (setSinks sinks (globalMaxRank p2) p2))

/-- The propagation body written as a left fold, as the amended description
phrases it. -/
def propagateFold (f : Nat) (cs : List Nat) (p : List (Nat × Nat)) (mr : Nat) :
    List (Nat × Nat) × Nat :=
  cs.foldl
    (fun acc t =>
      let r := max (lookupRank acc.1 t) (lookupRank acc.1 f + 1)
      (setAssoc acc.1 t r, max acc.2 r))
    (p, mr)

/-- Pushing every consumer onto the work stack in turn, as the amended
description phrases it. -/
def pushAll (rest : List Nat) (cs : List Nat) : List Nat :=
  cs.foldl (fun stack t => t :: stack) rest

/-- The ranking loop as the amended claim describes it: take a node from the
work list, reset its rank to 0 when it is a push source, raise each consumer to
`max(rank(consumer), rank(producer) + 1)` while tracking the maximum assigned
rank, and push each consumer back onto the work list. -/
def rankNodesAmended (g : List WiringNodeInstance) (supports_push : Bool)
    (m : List (Nat × List Nat)) :
    Nat → List Nat → List (Nat × Nat) → Nat →
    Option (Except String (List (Nat × Nat) × Nat))
  | _, [], p, mr => some (Except.ok (p, mr))
  | 0, _ :: _, _, _ => none
  | Nat.succ fuel1, f :: rest, p, mr =>
    if supports_push = false ∧ (nodeAt g f).is_push_source = true then
      some (Except.error "push source node not supported")
    else
      let p1 := if (nodeAt g f).is_push_source then setAssoc p f 0 else p
      let cs := lookupConsumers m f
      let pm := propagateFold f cs p1 mr
      rankNodesAmended g supports_push m fuel1 (pushAll rest cs) pm.1 pm.2

/-- The amended claim's algorithm: each discovered node starts at rank 1, the
ranking loop above runs to a fixed point, every original sink node's rank
becomes the maximum rank tracked during propagation (0 when no propagation step
ran), and the non-stub nodes are emitted in (rank, discovery-order) order. -/
def toposortAmended (g : List WiringNodeInstance) (sinks : List Nat)
    (supports_push : Bool) (fuel : Nat) : Option (Except String (List Nat)) :=
  match discover g fuel { mapping := [], sources := [], processed := [], queue := sinks } with
  | none => none
  | some st =>
    match rankNodesAmended g supports_push st.mapping fuel st.sources.reverse st.processed 0 with
    | none => none
    | some (Except.error msg) => some (Except.error msg)
    | some (Except.ok pm) =>
      some (Except.ok (emitSorted g (setSinks sinks pm.2 pm.1)))

/-- A push source node with no producers. -/
def c4_push_node : WiringNodeInstance :=
  { inputs := [], is_source_node := true, is_push_source := true, is_stub := false }

/-- A regular (pull) source node with no producers. -/
def c4_source_node : WiringNodeInstance :=
  { inputs := [], is_source_node := true, is_push_source := false, is_stub := false }

/-- The sink node, consuming the regular source (node 1) and then the push
source (node 0). -/
def c4_sink_node : WiringNodeInstance :=
  { inputs := [1, 0], is_source_node := false, is_push_source := false, is_stub := false }

/-- The counterexample graph of C4: a push source, a regular source, and a sink
consuming both. -/
def c4_graph : List WiringNodeInstance := [c4_push_node, c4_source_node, c4_sink_node]

end Wiring

/-- The set of elements apply_result would both add and remove is always empty:
the removed candidates are filtered to members of the value and the added
candidates to non-members. -/
theorem tss_filtered_sets_disjoint {α : Type} [DecidableEq α] (v a r : Finset α) :
    (r.filter (fun e => e ∈ v)) ∩ (a.filter (fun e => e ∉ v)) = ∅ := by
  ext e
  simp only [Finset.mem_inter, Finset.mem_filter, Finset.not_mem_empty, iff_false]
  tauto

/-- C9: for every prior set value and every SetDelta passed to
PythonTimeSeriesSetOutput.apply_result, the filtered added set (elements not
already in the value) and the filtered removed set (elements currently in the
value) are disjoint, so the ValueError "Cannot remove and add the same element"
is unreachable: apply_result succeeds on every input. -/
theorem tss_apply_result_never_raises {α : Type} [DecidableEq α] (now : DT)
    (s : TSS.PythonTimeSeriesSetOutput α) (d : TSS.PythonSetDelta α) :
    (d.removed.filter (fun e => e ∈ s.value)) ∩ (d.added.filter (fun e => e ∉ s.value)) = ∅ ∧
    ∀ v : TSS.ApplyValue α, ∃ s1, TSS.apply_result now s v = Except.ok s1 := by
  refine ⟨tss_filtered_sets_disjoint s.value d.added d.removed, ?_⟩
  intro v
  cases v with
  | vnone => exact ⟨s, rfl⟩
  | vdelta d0 =>
    have h := tss_filtered_sets_disjoint s.value d0.added d0.removed
    simp only [TSS.apply_result]
    rw [if_neg (by rw [h]; exact Finset.not_nonempty_empty)]
    exact ⟨_, rfl⟩
  | vraw r => exact ⟨_, rfl⟩

/-- C6 counterexample: with prior value containing 1, applying the delta
(added 1, removed 2) and reading delta_value in the same tick returns the empty
delta, which is not equivalent to the applied delta. -/
theorem tss_apply_result_roundtrip_counterexample :
    (TSS.apply_result 1 TSS.c6_state (TSS.ApplyValue.vdelta TSS.c6_delta)).toOption.bind
        TSS.delta_value = some ⟨∅, ∅⟩ ∧
    some (⟨∅, ∅⟩ : TSS.PythonSetDelta Nat) ≠ some TSS.c6_delta := by
  decide

/-- C6 (amended): for every time-series set output and every set delta d whose
added elements are not already in the value and whose removed elements all are,
calling apply_result(d) and then reading delta_value within the same tick
returns a delta equivalent to d; in general the delta read back is d filtered
against the prior value. -/
theorem tss_apply_result_roundtrip {α : Type} [DecidableEq α] (now : DT)
    (s : TSS.PythonTimeSeriesSetOutput α) (d : TSS.PythonSetDelta α)
    (hadd : ∀ x ∈ d.added, x ∉ s.value) (hrem : ∀ x ∈ d.removed, x ∈ s.value) :
    ∃ s1, TSS.apply_result now s (TSS.ApplyValue.vdelta d) = Except.ok s1 ∧
      TSS.delta_value s1 = some d := by
  obtain ⟨da, dr⟩ := d
  have h1 : da.filter (fun e => e ∉ s.value) = da := Finset.filter_true_of_mem hadd
  have h2 : dr.filter (fun e => e ∈ s.value) = dr := Finset.filter_true_of_mem hrem
  simp only [TSS.apply_result]
  rw [if_neg (by
    rw [h1, h2, Finset.not_nonempty_iff_eq_empty]
    ext x
    simp only [Finset.mem_inter, Finset.not_mem_empty, iff_false, not_and]
    intro hx
    exact fun hx2 => hadd x hx2 (hrem x hx))]
  refine ⟨_, rfl, ?_⟩
  split
  · simp only [TSS.delta_value, TSS.mark_modified, h1, h2]
  · simp only [TSS.delta_value, h1, h2]

/-- Witness for the amended C6 round trip at a concrete input. -/
theorem tss_apply_result_roundtrip_witness :
    ∃ s1, TSS.apply_result 1 TSS.c6_witness_state
        (TSS.ApplyValue.vdelta TSS.c6_witness_delta) = Except.ok s1 ∧
      TSS.delta_value s1 = some TSS.c6_witness_delta :=
  tss_apply_result_roundtrip 1 TSS.c6_witness_state TSS.c6_witness_delta
    (by decide) (by decide)

/-- C7: a bundle input bound to a peer output reports the peer output's valid
flag; an unbound bundle input reports the disjunction of its children's valid
flags. -/
theorem tsb_bundle_input_valid_flag (b : TSB.PythonTimeSeriesBundleInput) :
    (∀ o, b.output = some o → b.valid = o.valid) ∧
    (b.output = none →
      b.valid = b.children.any TSB.PythonBoundTimeSeriesInput.valid) := by
  constructor
  · intro o ho
    simp [TSB.PythonTimeSeriesBundleInput.valid, TSB.PythonTimeSeriesBundleInput.has_peer,
      TSB.PythonTimeSeriesBundleInput.super_valid, TSB.PythonBoundTimeSeriesInput.valid, ho]
  · intro ho
    simp [TSB.PythonTimeSeriesBundleInput.valid, TSB.PythonTimeSeriesBundleInput.has_peer, ho]

/-- Witness for C7: the peered bundle reports its peer's validity, the unbound
bundle the disjunction over its children. -/
theorem tsb_bundle_input_valid_flag_witness :
    TSB.c7_peered.valid = true ∧ TSB.c7_unbound.valid = true := by
  constructor
  · exact ((tsb_bundle_input_valid_flag TSB.c7_peered).1 ⟨true⟩ rfl).trans rfl
  · exact ((tsb_bundle_input_valid_flag TSB.c7_unbound).2 rfl).trans (by decide)

/-- C2: advance_engine_time follows the exact precedence of the specification
for every engine state: the source transcription equals the clause-by-clause
transcription of the spec (stop_requested snap to end_time first, then the
wall-clock-caught-up snap to the proposed time, then the pending-push snap to
the wall clock, otherwise the wait call), both on the context update and on the
engine method. -/
theorem engine_advance_follows_spec_precedence (now : DT) (e : Engine.PythonGraphEngine) :
    Engine.advance_engine_time now e = { e with execution_context := Option.map (Engine.advanceCtxSpec now e.stop_requested e.end_time) e.execution_context } ∧
    ∀ (sr : Bool) (et : DT) (ctx : Engine.BackTestExecutionContext),
      Engine.advanceCtx now sr et ctx = Engine.advanceCtxSpec now sr et ctx := by
  exact ⟨rfl, fun _ _ _ => rfl⟩

/-- C3: the claim fails on the code.  After initialise every scheduler slot is
MIN_DT, yet the execution context created by start proposes MAX_DT as the next
engine time — BackTestExecutionContext never recomputes
`_proposed_next_engine_time` from the scheduler slots, and advance_engine_time
never writes it. -/
theorem engine_proposed_time_stuck_at_max_dt :
    (Engine.initialise Engine.c3_engine).scheduler = [MIN_DT] ∧
    (∃ e2, Engine.startEngine 0 (Engine.initialise Engine.c3_engine) = Except.ok e2 ∧
      ∃ ctx, e2.execution_context = some ctx ∧
        ctx.proposed_next_engine_time = MAX_DT) ∧
    MAX_DT ≠ MIN_DT ∧
    ∀ (now : DT) (sr : Bool) (et : DT) (ctx : Engine.BackTestExecutionContext),
      (Engine.advanceCtx now sr et ctx).proposed_next_engine_time =
        ctx.proposed_next_engine_time := by
  refine ⟨rfl, ⟨_, rfl, _, rfl, rfl⟩, by decide, ?_⟩
  intro now sr et ctx
  simp only [Engine.advanceCtx, Engine.set_current_engine_time,
    Engine.wait_until_proposed_engine_time]
  split_ifs <;> rfl

/-- C5: the claim's contract fails on the code.  Stopping a started one-node
engine fires on_before_stop, on_before_stop_node, then — after node.stop() —
on_before_start_node instead of the symmetric on_after_stop_node, and finally
on_after_stop; no on_after_stop_node callback is ever fired. -/
theorem engine_stop_fires_before_start_node :
    (Engine.stopEngine Engine.c5_engine).2 =
      [Engine.LifeEvent.before_stop, Engine.LifeEvent.before_stop_node 0,
       Engine.LifeEvent.before_start_node 0, Engine.LifeEvent.after_stop] ∧
    Engine.LifeEvent.after_stop_node 0 ∉ (Engine.stopEngine Engine.c5_engine).2 := by
  decide

/-- A node evaluation step leaves every engine field unchanged except possibly
setting stop_requested. -/
theorem engine_eval_node_preserves (now : DT) (n : Engine.PNode)
    (e : Engine.PythonGraphEngine) :
    (Engine.eval_node now n e).execution_context = e.execution_context ∧
    (Engine.eval_node now n e).end_time = e.end_time ∧
    (e.stop_requested = true → (Engine.eval_node now n e).stop_requested = true) := by
  unfold Engine.eval_node Engine.request_stop
  split
  · exact ⟨rfl, rfl, fun _ => rfl⟩
  · exact ⟨rfl, rfl, fun h => h⟩

/-- The scheduled-node evaluation fold preserves the execution context and the
end time, and never clears stop_requested. -/
theorem engine_foldl_sched_preserves (now : DT) (ns : List Engine.PNode) :
    ∀ e : Engine.PythonGraphEngine,
    ((ns.foldl (fun acc n => if n.scheduled_time = now then Engine.eval_node now n acc else acc) e).execution_context = e.execution_context) ∧
    ((ns.foldl (fun acc n => if n.scheduled_time = now then Engine.eval_node now n acc else acc) e).end_time = e.end_time) ∧
    (e.stop_requested = true → (ns.foldl (fun acc n => if n.scheduled_time = now then Engine.eval_node now n acc else acc) e).stop_requested = true) := by
  induction ns with
  | nil => exact fun e => ⟨rfl, rfl, fun h => h⟩
  | cons hd tl ih =>
    intro e
    have hstep :
        ((if hd.scheduled_time = now then Engine.eval_node now hd e else e).execution_context = e.execution_context) ∧
        ((if hd.scheduled_time = now then Engine.eval_node now hd e else e).end_time = e.end_time) ∧
        (e.stop_requested = true → (if hd.scheduled_time = now then Engine.eval_node now hd e else e).stop_requested = true) := by
      split
      · exact engine_eval_node_preserves now hd e
      · exact ⟨rfl, rfl, fun h => h⟩
    obtain ⟨h1, h2, h3⟩ := ih (if hd.scheduled_time = now then Engine.eval_node now hd e else e)
    exact ⟨h1.trans hstep.1, h2.trans hstep.2.1, fun h => h3 (hstep.2.2 h)⟩

/-- evaluate_graph preserves the execution context and end time and never
clears stop_requested. -/
theorem engine_evaluate_graph_preserves (e : Engine.PythonGraphEngine) :
    (Engine.evaluate_graph e).execution_context = e.execution_context ∧
    (Engine.evaluate_graph e).end_time = e.end_time ∧
    (e.stop_requested = true → (Engine.evaluate_graph e).stop_requested = true) := by
  unfold Engine.evaluate_graph
  cases hctx : e.execution_context with
  | none => exact ⟨hctx, rfl, fun h => h⟩
  | some ctx =>
    dsimp only [Engine.push_has_pending_values, Bool.false_eq_true, if_false]
    obtain ⟨h1, h2, h3⟩ :=
      engine_foldl_sched_preserves ctx.current_time (e.nodes.drop e.push_source_nodes_end) e
    exact ⟨h1.trans hctx, h2, h3⟩

/-- advance_engine_time on a state with stop_requested set snaps the context's
current engine time to end_time. -/
theorem engine_advance_stop (now : DT) (e : Engine.PythonGraphEngine)
    (ctx : Engine.BackTestExecutionContext)
    (hctx : e.execution_context = some ctx) (hstop : e.stop_requested = true) :
    Engine.advance_engine_time now e =
      { e with execution_context := some (Engine.set_current_engine_time now e.end_time ctx) } := by
  unfold Engine.advance_engine_time
  rw [hctx, hstop]
  simp [Engine.advanceCtx]

/-- Once stop_requested holds while the current engine time is not beyond
end_time, the run loop never finishes, whatever the fuel: each pass re-enters
the loop with the current time snapped to end_time and the flag still set. -/
theorem engine_runLoop_none_of_stop (clk : Nat → DT) :
    ∀ (fuel k : Nat) (e : Engine.PythonGraphEngine)
      (ctx : Engine.BackTestExecutionContext),
      e.execution_context = some ctx → e.stop_requested = true →
      ctx.current_time ≤ e.end_time →
      Engine.runLoop clk fuel k e = Except.ok none := by
  intro fuel
  induction fuel with
  | zero =>
    intro k e ctx hctx hstop hle
    simp only [Engine.runLoop]
    rw [hctx]
    dsimp only
    rw [if_pos hle]
  | succ f ih =>
    intro k e ctx hctx hstop hle
    simp only [Engine.runLoop]
    rw [hctx]
    dsimp only
    rw [if_pos hle]
    obtain ⟨h1, h2, h3⟩ := engine_evaluate_graph_preserves e
    rw [engine_advance_stop (clk k) (Engine.evaluate_graph e) ctx (h1.trans hctx) (h3 hstop)]
    apply ih (k + 1) _ (Engine.set_current_engine_time (clk k) (Engine.evaluate_graph e).end_time ctx)
    · rfl
    · exact h3 hstop
    · show (Engine.evaluate_graph e).end_time ≤ (Engine.evaluate_graph e).end_time
      exact le_refl _

/-- On the concrete C1 engine, the loop never finishes: the first pass
evaluates the stopping node (which requests the stop), advancing snaps the
current engine time to end_time, and from then on the loop condition
`current_engine_time <= end_time` stays true forever. -/
theorem engine_runLoop_c1_aux (clk : Nat → DT) :
    ∀ (fuel k : Nat) (a : DT),
      Engine.runLoop clk fuel k
        { nodes := [Engine.stopping_node], push_source_nodes_end := 0,
          is_started := true, stop_requested := false, start_time := 0,
          end_time := 5, scheduler := [MIN_DT],
          execution_context := some ⟨0, MAX_DT, a⟩,
          run_mode := Engine.RunMode.BACK_TEST } = Except.ok none := by
  intro fuel k a
  cases fuel with
  | zero => rfl
  | succ f =>
    exact engine_runLoop_none_of_stop clk f (k + 1) _ ⟨5, MAX_DT, clk k⟩ rfl rfl
      (le_refl 5)

/-- C1: the claim fails on the code.  On a run in which a node calls
request_stop during evaluation, advance_engine_time snaps the current engine
time to end_time, but the loop guard `current_engine_time <= end_time` is then
still true, so the outer while-loop never exits: run reports an unfinished loop
for every fuel bound, i.e. the Python loop diverges and run never returns. -/
theorem engine_run_diverges_after_request_stop (clk : Nat → DT) (fuel : Nat) :
    Engine.run clk fuel (Engine.initialise Engine.c1_engine) 0 5 = Except.ok none := by
  have key : ∀ (r : Except Engine.RunError (Option Engine.PythonGraphEngine)),
      r = Except.ok none →
      (match r with
       | Except.error er => Except.error er
       | Except.ok none =>
         (Except.ok none : Except Engine.RunError (Option Engine.PythonGraphEngine))
       | Except.ok (some e3) => Except.ok (some (Engine.stopEngine e3).1)) =
        Except.ok none := by
    intro r hr
    rw [hr]
  exact key _ (engine_runLoop_c1_aux clk fuel 1 (clk 0))

/-- The run loop never raises the invalid-time-range error: its only error is
the missing-context AttributeError. -/
theorem engine_runLoop_ne_invalid (clk : Nat → DT) :
    ∀ (fuel k : Nat) (e : Engine.PythonGraphEngine),
      Engine.runLoop clk fuel k e ≠ Except.error Engine.RunError.invalidTimeRange := by
  intro fuel
  induction fuel with
  | zero =>
    intro k e
    simp only [Engine.runLoop]
    cases hctx : e.execution_context with
    | none => simp
    | some ctx =>
      dsimp only
      split
      · simp
      · simp
  | succ f ih =>
    intro k e
    simp only [Engine.runLoop]
    cases hctx : e.execution_context with
    | none => simp
    | some ctx =>
      dsimp only
      split
      · exact ih (k + 1) _
      · simp

/-- C8 counterexample: on a REAL_TIME engine with end_time equal to start_time
(so end >= start), run fails with NotImplementedError before the evaluation
loop begins — start itself raises — so "no such error is raised and the loop is
entered" does not hold as stated for every engine. -/
theorem engine_run_real_time_fails_before_loop :
    Engine.run (fun _ => 0) 5 Engine.c8_engine 0 0 =
      Except.error Engine.RunError.notImplemented ∧
    Engine.startEngine 0 { Engine.c8_engine with start_time := 0, end_time := 0 } =
      Except.error Engine.RunError.notImplemented ∧
    Engine.RunError.notImplemented ≠ Engine.RunError.invalidTimeRange ∧
    (0 : DT) ≤ 0 :=
  ⟨rfl, rfl, by decide, by decide⟩

/-- C8 (amended): run fails with the invalid-time-range ValueError if and only
if end_time < start_time; and when end_time >= start_time on a not-yet-started
BACK_TEST engine, start succeeds and the evaluation loop is entered (the loop
guard holds on entry). -/
theorem engine_run_invalid_time_range_iff (clk : Nat → DT) (fuel : Nat)
    (e : Engine.PythonGraphEngine) (s t : DT)
    (hmode : e.run_mode = Engine.RunMode.BACK_TEST)
    (hstarted : e.is_started = false) :
    ((Engine.run clk fuel e s t = Except.error Engine.RunError.invalidTimeRange) ↔ t < s) ∧
    (s ≤ t → ∃ e2,
      Engine.startEngine (clk 0) { e with start_time := s, end_time := t } = Except.ok e2 ∧
      Engine.runLoop clk 0 1 e2 = Except.ok none) := by
  have hstart : Engine.startEngine (clk 0) { e with start_time := s, end_time := t } =
      Except.ok { e with start_time := s, end_time := t, is_started := true,
                         stop_requested := false,
                         execution_context :=
                           some (Engine.mkBackTestExecutionContext s (clk 0)) } := by
    unfold Engine.startEngine
    dsimp only
    rw [hstarted, hmode]
    rfl
  constructor
  · constructor
    · intro hrun
      by_cases hts : t < s
      · exact hts
      · exfalso
        unfold Engine.run at hrun
        rw [if_neg hts, hstart] at hrun
        dsimp only at hrun
        cases hloop : Engine.runLoop clk fuel 1
            { e with start_time := s, end_time := t, is_started := true,
                     stop_requested := false,
                     execution_context :=
                       some (Engine.mkBackTestExecutionContext s (clk 0)) } with
        | error er =>
          rw [hloop] at hrun
          cases er with
          | invalidTimeRange => exact engine_runLoop_ne_invalid clk fuel 1 _ hloop
          | notImplemented => exact Except.noConfusion hrun (fun h => by cases h)
          | attributeError => exact Except.noConfusion hrun (fun h => by cases h)
        | ok r =>
          rw [hloop] at hrun
          cases r with
          | none => exact Except.noConfusion hrun
          | some e3 => exact Except.noConfusion hrun
    · intro hts
      unfold Engine.run
      rw [if_pos hts]
  · intro hst
    refine ⟨_, hstart, ?_⟩
    simp only [Engine.runLoop, Engine.mkBackTestExecutionContext,
      Engine.set_current_engine_time]
    rw [if_pos hst]

/-- Witness for the amended C8 at a concrete back-test engine with a proper
time window. -/
theorem engine_run_invalid_time_range_iff_witness :
    ((Engine.run (fun _ => 0) 3 Engine.c8_witness_engine 0 1 =
        Except.error Engine.RunError.invalidTimeRange) ↔ (1 : DT) < 0) ∧
    ((0 : DT) ≤ 1 → ∃ e2,
      Engine.startEngine 0
          { Engine.c8_witness_engine with start_time := 0, end_time := 1 } =
        Except.ok e2 ∧
      Engine.runLoop (fun _ => 0) 0 1 e2 = Except.ok none) :=
  engine_run_invalid_time_range_iff (fun _ => 0) 3 Engine.c8_witness_engine 0 1 rfl rfl

/-- A successful output extraction means the path was non-empty. -/
theorem builder_extract_output_ok_nonempty (n : Builder.RNode) (p : List Nat)
    (t : Builder.TSTree) (h : Builder.extract_output n p = Except.ok t) :
    p ≠ [] := by
  intro hp
  rw [hp] at h
  exact Except.noConfusion h

/-- A successful input extraction means the path was non-empty. -/
theorem builder_extract_input_ok_nonempty (n : Builder.RNode) (p : List Nat)
    (t : Builder.TSTree) (h : Builder.extract_input n p = Except.ok t) :
    p ≠ [] := by
  intro hp
  rw [hp] at h
  exact Except.noConfusion h

/-- If any declared edge carries an empty output or input path, the edge-wiring
loop raises. -/
theorem builder_wireEdges_error_of_empty_path (nodes : List Builder.RNode) :
    ∀ (es : List Builder.Edge) (acc : List Builder.Binding),
      (∃ e ∈ es, e.output_path = [] ∨ e.input_path = []) →
      ∃ msg, Builder.wireEdges nodes es acc = Except.error msg := by
  intro es
  induction es with
  | nil =>
    intro acc h
    obtain ⟨e, he, _⟩ := h
    exact absurd he (List.not_mem_nil e)
  | cons e0 rest ih =>
    intro acc h
    simp only [Builder.wireEdges]
    cases hsrc : Builder.getNode nodes e0.src_node with
    | error msg => exact ⟨msg, rfl⟩
    | ok src =>
      dsimp only
      cases hdst : Builder.getNode nodes e0.dst_node with
      | error msg => exact ⟨msg, rfl⟩
      | ok dst =>
        dsimp only
        cases hout : Builder.extract_output src e0.output_path with
        | error msg => exact ⟨msg, rfl⟩
        | ok out =>
          dsimp only
          cases hinp : Builder.extract_input dst e0.input_path with
          | error msg => exact ⟨msg, rfl⟩
          | ok inp =>
            dsimp only
            obtain ⟨e, he, hpath⟩ := h
            rcases List.mem_cons.mp he with rfl | hrest
            · exfalso
              rcases hpath with hp | hp
              · exact builder_extract_output_ok_nonempty src e.output_path out hout hp
              · exact builder_extract_input_ok_nonempty dst e.input_path inp hinp hp
            · exact ih _ ⟨e, hrest, hpath⟩

/-- A successful edge-wiring pass certifies that every edge's paths were
non-empty. -/
theorem builder_wireEdges_ok_paths (nodes : List Builder.RNode) :
    ∀ (es : List Builder.Edge) (acc bs : List Builder.Binding),
      Builder.wireEdges nodes es acc = Except.ok bs →
      ∀ e ∈ es, e.output_path ≠ [] ∧ e.input_path ≠ [] := by
  intro es
  induction es with
  | nil => intro acc bs _ e he; exact absurd he (List.not_mem_nil e)
  | cons e0 rest ih =>
    intro acc bs hok e he
    simp only [Builder.wireEdges] at hok
    cases hsrc : Builder.getNode nodes e0.src_node with
    | error msg => rw [hsrc] at hok; exact Except.noConfusion hok
    | ok src =>
      rw [hsrc] at hok
      dsimp only at hok
      cases hdst : Builder.getNode nodes e0.dst_node with
      | error msg => rw [hdst] at hok; exact Except.noConfusion hok
      | ok dst =>
        rw [hdst] at hok
        dsimp only at hok
        cases hout : Builder.extract_output src e0.output_path with
        | error msg => rw [hout] at hok; exact Except.noConfusion hok
        | ok out =>
          rw [hout] at hok
          dsimp only at hok
          cases hinp : Builder.extract_input dst e0.input_path with
          | error msg => rw [hinp] at hok; exact Except.noConfusion hok
          | ok inp =>
            rw [hinp] at hok
            dsimp only at hok
            rcases List.mem_cons.mp he with rfl | hrest
            · exact ⟨builder_extract_output_ok_nonempty src e.output_path out hout,
                builder_extract_input_ok_nonempty dst e.input_path inp hinp⟩
            · exact ih _ bs hok e hrest

/-- C10: make_instance raises whenever any declared edge has an empty
output_path or an empty input_path, and wiring proceeds to a graph instance
only when every edge addresses its producer output and consumer input through
non-empty paths. -/
theorem builder_make_instance_requires_nonempty_paths
    (b : Builder.PythonGraphBuilder) (gid : List Nat) :
    ((∃ e ∈ b.edges, e.output_path = [] ∨ e.input_path = []) →
      ∃ msg, Builder.make_instance b gid = Except.error msg) ∧
    (∀ g, Builder.make_instance b gid = Except.ok g →
      ∀ e ∈ b.edges, e.output_path ≠ [] ∧ e.input_path ≠ []) := by
  constructor
  · intro h
    obtain ⟨msg, hmsg⟩ := builder_wireEdges_error_of_empty_path
      (b.node_builders.map (fun nb => nb.make gid)) b.edges [] h
    refine ⟨msg, ?_⟩
    unfold Builder.make_instance
    dsimp only
    rw [hmsg]
  · intro g hg
    unfold Builder.make_instance at hg
    dsimp only at hg
    cases hw : Builder.wireEdges (b.node_builders.map (fun nb => nb.make gid)) b.edges [] with
    | error msg => rw [hw] at hg; exact Except.noConfusion hg
    | ok bs => exact builder_wireEdges_ok_paths _ b.edges [] bs hw

/-- Witness for C10: the builder with an emptied output path fails, and on the
well-formed builder every edge of a successful instantiation has non-empty
paths. -/
theorem builder_make_instance_requires_nonempty_paths_witness :
    (∃ msg, Builder.make_instance Builder.c10_builder_empty_path [] = Except.error msg) ∧
    (∀ e ∈ Builder.c10_builder.edges, e.output_path ≠ [] ∧ e.input_path ≠ []) :=
  ⟨(builder_make_instance_requires_nonempty_paths Builder.c10_builder_empty_path []).1
      ⟨⟨0, 1, [], [0]⟩, List.Mem.head _, Or.inl rfl⟩,
   (builder_make_instance_requires_nonempty_paths Builder.c10_builder []).2 _ rfl⟩

/-- C4 counterexample: on the three-node graph (push source 0, regular source
1, sink 2 consuming both), the source's toposort emits [0, 1, 2] — the push
source leads and the regular source is ranked 1, not 0 — while the algorithm
the claim describes emits [1, 0, 2]. -/
theorem wiring_toposort_differs_from_claimed :
    (Wiring.toposort Wiring.c4_graph [2] true 10).map Except.toOption =
      some (some [0, 1, 2]) ∧
    Wiring.toposortClaimed Wiring.c4_graph [2] 10 = some [1, 0, 2] ∧
    ([0, 1, 2] : List Nat) ≠ [1, 0, 2] := by
  decide

/-- The explicit propagation recursion equals its left-fold phrasing. -/
theorem wiring_propagateFold_eq (f : Nat) :
    ∀ (cs : List Nat) (p : List (Nat × Nat)) (mr : Nat),
      Wiring.propagateFold f cs p mr = Wiring.propagate f cs p mr := by
  intro cs
  induction cs with
  | nil => intro p mr; rfl
  | cons t ts ih =>
    intro p mr
    simp only [Wiring.propagateFold, List.foldl_cons] at ih ⊢
    exact ih _ _

/-- Pushing each consumer onto the stack in turn is prepending the reversed
consumer list. -/
theorem wiring_pushAll_eq :
    ∀ (cs rest : List Nat), Wiring.pushAll rest cs = cs.reverse ++ rest := by
  intro cs
  induction cs with
  | nil => intro rest; rfl
  | cons c cs1 ih =>
    intro rest
    simp only [Wiring.pushAll, List.foldl_cons] at ih ⊢
    rw [ih (c :: rest)]
    simp

/-- The amended ranking loop equals the source's ranking loop. -/
theorem wiring_rankNodesAmended_eq (g : List Wiring.WiringNodeInstance)
    (sp : Bool) (m : List (Nat × List Nat)) :
    ∀ (fuel : Nat) (stack : List Nat) (p : List (Nat × Nat)) (mr : Nat),
      Wiring.rankNodesAmended g sp m fuel stack p mr =
        Wiring.rankNodes g sp m fuel stack p mr := by
  intro fuel
  induction fuel with
  | zero =>
    intro stack p mr
    cases stack with
    | nil => rfl
    | cons f rest => rfl
  | succ f1 ih =>
    intro stack p mr
    cases stack with
    | nil => rfl
    | cons f rest =>
      simp only [Wiring.rankNodesAmended, Wiring.rankNodes]
      split
      · rfl
      · rw [wiring_propagateFold_eq, wiring_pushAll_eq, ih]

/-- C4 (amended): for every set of sink nodes, toposort assigns each node rank
1 when it is first discovered in the reverse traversal from the sinks, resets
each push-source node's rank to 0 as it is taken from the work list, propagates
rank(consumer) = max(rank(consumer), rank(producer) + 1) to a fixed point,
re-assigns every original sink node's rank to the maximum rank tracked during
propagation (0 when no propagation step ran), and emits the non-stub nodes in
(rank, discovery-order) order: the source transcription coincides with the
amended algorithm on every graph, sink list, push-support flag and fuel. -/
theorem wiring_toposort_matches_amended (g : List Wiring.WiringNodeInstance)
    (sinks : List Nat) (supports_push : Bool) (fuel : Nat) :
    Wiring.toposort g sinks supports_push fuel =
      Wiring.toposortAmended g sinks supports_push fuel := by
  unfold Wiring.toposort Wiring.toposortAmended
  cases hd : Wiring.discover g fuel
      { mapping := [], sources := [], processed := [], queue := sinks } with
  | none => rfl
  | some st =>
    dsimp only
    rw [wiring_rankNodesAmended_eq]
